import Mathlib

/-!
Shallow embedding of the data-analysis pipeline in `src/数据分析.py`:
the type-optimization rules (`optimize_dtypes`), the cleaner
(`preprocess_data`), the instruction compiler (`parse_prompt_optimized`),
the filter engine (`apply_filters_optimized`) and the groupby/aggregate
step of `main`, together with theorems settling the frozen claims.

Modelling conventions:
- pandas cell values are modelled by `Value` (rational number, string,
  date with year/month, or null/NaN).  A row is an association list from
  column names to values; a `DataFrame` is a column list plus rows.
- Python tuples used as filter clauses are modelled by `List Atom`, so
  that the length-sensitive tuple unpacking in `apply_filters_optimized`
  (`col, filt_type, val = filt`) is representable: unpacking a list whose
  length is not 3 raises `ValueError`, which we model with `Except.error`.
- float arithmetic is modelled by exact rationals `ℚ`.  Rational
  operations are written via `mkRat` (kernel-reducible) with bridge
  lemmas to `+`, `*`, `/` for symbolic reasoning.
- the fixed-seed `df.sample` fallback for oversized results is modelled
  by an arbitrary function parameter `sampler`; every theorem quantifies
  over it, so every concrete sampler (including the real seeded one) is
  covered.
- Python `re.search` on the four fixed patterns (`(\d{4})年`,
  `(\d{1,2})月`, `最高(\d+)个`, `最低(\d+)个`) is modelled by structural
  leftmost-match scanners over the character list.
-/

namespace ExcelAnalysis

/-! ### String utilities -/

/-- Lexicographic comparison of character lists by code point, the order
Python uses when pandas sorts string group keys. -/
def charListLe : List Char → List Char → Bool
  | [], _ => true
  | _ :: _, [] => false
  | a :: as, b :: bs =>
    if a.toNat < b.toNat then true
    else if b.toNat < a.toNat then false
    else charListLe as bs

def strLe (s t : String) : Bool := charListLe s.data t.data

/-- Python substring containment `need in hay` over char lists. -/
def containsSubList (need : List Char) : List Char → Bool
  | [] => need.isEmpty
  | c :: rest => need.isPrefixOf (c :: rest) || containsSubList need rest

/-- Python substring containment `need in hay` for strings. -/
def containsSub (hay need : String) : Bool := containsSubList need.data hay.data

def numOfDigits (ds : List Char) : ℕ := ds.foldl (fun n c => n * 10 + (c.toNat - 48)) 0

/-! ### Regex scanners used by `parse_prompt_optimized` -/

/-- Match of `(\d{4})年` anchored at the head of the list. -/
def matchYearAt : List Char → Option ℕ
  | c1 :: c2 :: c3 :: c4 :: c5 :: _ =>
    if c1.isDigit && c2.isDigit && c3.isDigit && c4.isDigit && c5 = '年' then
      some (numOfDigits [c1, c2, c3, c4])
    else none
  | _ => none

/-- `re.search(r"(\d{4})年", ·)`: leftmost match. -/
def searchYear : List Char → Option ℕ
  | [] => none
  | c :: rest =>
    match matchYearAt (c :: rest) with
    | some y => some y
    | none => searchYear rest

/-- Match of `(\d{1,2})月` anchored at the head of the list (greedy, so a
two-digit match is preferred). -/
def matchMonthAt : List Char → Option ℕ
  | c1 :: c2 :: c3 :: _ =>
    if c1.isDigit && c2.isDigit && c3 = '月' then some (numOfDigits [c1, c2])
    else if c1.isDigit && c2 = '月' then some (numOfDigits [c1])
    else none
  | [c1, c2] =>
    if c1.isDigit && c2 = '月' then some (numOfDigits [c1]) else none
  | _ => none

/-- `re.search(r"(\d{1,2})月", ·)`: leftmost match. -/
def searchMonth : List Char → Option ℕ
  | [] => none
  | c :: rest =>
    match matchMonthAt (c :: rest) with
    | some m => some m
    | none => searchMonth rest

/-- Match of `k1 k2 (\d+)个` anchored at the head of the list. -/
def matchRankAt (k1 k2 : Char) : List Char → Option ℕ
  | c1 :: c2 :: r2 =>
    if c1 = k1 ∧ c2 = k2 then
      let ds := r2.takeWhile Char.isDigit
      if ds.isEmpty then none
      else
        match r2.drop ds.length with
        | '个' :: _ => some (numOfDigits ds)
        | _ => none
    else none
  | _ => none

/-- `re.search(r"最高(\d+)个", ·)` and `re.search(r"最低(\d+)个", ·)`:
leftmost match of `k1 k2 (\d+)个`. -/
def searchRank (k1 k2 : Char) : List Char → Option ℕ
  | [] => none
  | c :: rest =>
    match matchRankAt k1 k2 (c :: rest) with
    | some n => some n
    | none => searchRank k1 k2 rest

/-! ### Kernel-reducible rational helpers -/

def qAdd (a b : ℚ) : ℚ := mkRat (a.num * (b.den : ℤ) + b.num * (a.den : ℤ)) (a.den * b.den)

def qDivNat (a : ℚ) (n : ℕ) : ℚ := mkRat a.num (a.den * n)

def qMulNat (a : ℚ) (n : ℕ) : ℚ := mkRat (a.num * (n : ℤ)) a.den

def ratFloor (q : ℚ) : ℤ := Int.fdiv q.num (q.den : ℤ)

/-- Round to the nearest integer, ties to even — numpy/pandas rounding. -/
def roundHalfEven (q : ℚ) : ℤ :=
  let f := ratFloor q
  let r2 := 2 * (q.num - f * (q.den : ℤ))
  if r2 < (q.den : ℤ) then f
  else if (q.den : ℤ) < r2 then f + 1
  else if f % 2 = 0 then f else f + 1

/-- pandas `.round(2)`. -/
def round2 (q : ℚ) : ℚ := mkRat (roundHalfEven (qMulNat q 100)) 100

/-! ### Data model -/

/-- A pandas cell value: numeric, string, datetime (year/month), or NaN. -/
inductive Value where
  | num (q : ℚ)
  | str (s : String)
  | date (y m : ℕ)
  | null
deriving DecidableEq

/-- A row as an association list from column name to value. -/
abbrev Row := List (String × Value)

/-- Reading a cell; a missing key reads as null. -/
def cell (r : Row) (c : String) : Value := (r.lookup c).getD Value.null

structure DataFrame where
  cols : List String
  rows : List Row
deriving DecidableEq

/-- Constructor rank used to totalize the sort order on mixed values. -/
def vrank : Value → ℕ
  | .num _ => 0
  | .str _ => 1
  | .date _ _ => 2
  | .null => 3

/-- Sort order on cell values: numerics by `≤`, strings lexicographically
by code point (as Python), dates chronologically; mixed constructors are
ordered by rank to keep the order total. -/
def valueLe : Value → Value → Bool
  | .num a, .num b => decide (a ≤ b)
  | .str a, .str b => strLe a b
  | .date y1 m1, .date y2 m2 => decide (y1 < y2) || (decide (y1 = y2) && decide (m1 ≤ m2))
  | a, b => decide (vrank a ≤ vrank b)

def vle (a b : Value) : Prop := valueLe a b = true

instance : DecidableRel vle := fun a b => inferInstanceAs (Decidable (valueLe a b = true))

/-! ### `optimize_dtypes` (TypeOptimizer) -/

def int32MaxZ : ℤ := 2147483647

def int32MinZ : ℤ := -2147483648

def listMaxZ : List ℤ → Option ℤ
  | [] => none
  | a :: as => some (as.foldl max a)

def listMinZ : List ℤ → Option ℤ
  | [] => none
  | a :: as => some (as.foldl min a)

/-- Width (in bits) at which `optimize_dtypes` stores an int64 column:
int32 iff the observed max and min fit int32, otherwise it stays int64.
An empty column keeps int64 (`max()` of an empty series is NaN and the
comparison is false). -/
def optimizedIntWidth (vals : List ℤ) : ℕ :=
  match listMaxZ vals, listMinZ vals with
  | some mx, some mn => if mx ≤ int32MaxZ ∧ int32MinZ ≤ mn then 32 else 64
  | _, _ => 64

def fitsWidth (w : ℕ) (v : ℤ) : Bool := decide (-(2 ^ (w - 1)) ≤ v) && decide (v < 2 ^ (w - 1))

/-- Modelled from the spec words of claim C8: the smallest signed integer
width among 8/16/32/64 bits that loses no value of the column. -/
def smallestLosslessWidth (vals : List ℤ) : ℕ :=
  (([8, 16, 32, 64] : List ℕ).find? (fun w => vals.all (fitsWidth w))).getD 64

/-- Whether `optimize_dtypes` converts a text column to `category`:
the column must not be the synthesized `来源文件` (source-file) column and
`len(unique)/len < 0.1`, written without division as `10·distinct < len`
(`unique()` counts NaN, so distinct values are counted over all cells). -/
def becomesCategory (name : String) (vals : List Value) : Bool :=
  decide (name ≠ "来源文件") && decide (10 * vals.dedup.length < vals.length)

/-! ### `preprocess_data` (Cleaner) -/

/-- Restriction of a row to the given columns, in column order. -/
def rowProjn (cols : List String) (r : Row) : Row := cols.map (fun c => (c, cell r c))

/-- pandas `drop_duplicates()` (keep the first of equal rows). -/
def dedupRows : List Row → List Row
  | [] => []
  | r :: rs => r :: (dedupRows rs).filter (fun s => decide (s ≠ r))

/-- The non-null numeric values of a column, in row order — pandas skips
NaN when aggregating or taking a median. -/
def colNumsQ (c : String) (rows : List Row) : List ℚ :=
  rows.filterMap (fun r => match cell r c with | .num q => some q | _ => none)

def sortQ (l : List ℚ) : List ℚ := List.insertionSort (· ≤ ·) l

/-- pandas `median()` with linear interpolation: middle element, or the
mean of the two middle elements.  The median of an empty list is modelled
as 0 (pandas yields NaN; no claim depends on this case). -/
def medianQ (l : List ℚ) : ℚ :=
  let s := sortQ l
  if s.length = 0 then 0
  else if s.length % 2 = 1 then (s.get? (s.length / 2)).getD 0
  else qDivNat (qAdd ((s.get? (s.length / 2 - 1)).getD 0) ((s.get? (s.length / 2)).getD 0)) 2

/-- `df.dropna(how="all", axis=0)`: keep the rows with some non-null cell. -/
def dropNullRows (df : DataFrame) : List Row :=
  df.rows.filter (fun r => df.cols.any (fun c => decide (cell r c ≠ Value.null)))

/-- `.dropna(how="all", axis=1)`: keep the columns with some non-null cell
among the surviving rows. -/
def keptCols (df : DataFrame) : List String :=
  df.cols.filter (fun c => (dropNullRows df).any (fun r => decide (cell r c ≠ Value.null)))

/-- `.drop_duplicates()` on the narrowed table (rows restricted to the
kept columns so that row equality is equality on all remaining columns). -/
def dedupedRows (df : DataFrame) : List Row :=
  dedupRows ((dropNullRows df).map (rowProjn (keptCols df)))

/-- `df[col] = df[col].fillna(df[col].median())` applied to one row: null
cells of numeric columns are replaced by the column median over `rows`. -/
def fillRow (isNum : String → Bool) (cols : List String) (rows : List Row) (r : Row) : Row :=
  cols.map (fun c =>
    (c, if isNum c = true ∧ cell r c = Value.null
        then Value.num (medianQ (colNumsQ c rows)) else cell r c))

/-- `preprocess_data`: drop all-null rows, then all-null columns, then
duplicate rows, then fill null numeric cells with the column median.
`isNum` is the dtype oracle for `select_dtypes(include=["int32","float32"])`;
dtypes are unchanged by these operations, so the same oracle is faithful
for repeated runs. -/
def preprocess_data (isNum : String → Bool) (df : DataFrame) : DataFrame :=
  ⟨keptCols df,
   (dedupedRows df).map (fillRow isNum (keptCols df) (dedupedRows df))⟩

/-! ### `parse_prompt_optimized` (QueryCompiler) -/

def chartMap : List (String × String) :=
  [("柱状图", "bar"), ("折线图", "line"), ("饼图", "pie"), ("散点图", "scatter"), ("箱线图", "box")]

def statMap : List (String × String) :=
  [("总和", "sum"), ("平均值", "mean"), ("均值", "mean"), ("中位数", "median"),
   ("最大值", "max"), ("最小值", "min"), ("数量", "count"), ("计数", "count")]

/-- Metric: first numeric column (in declared order) contained in the text. -/
def extractTarget (prompt : String) (numericCols : List String) : Option String :=
  numericCols.find? (fun c => containsSub prompt c)

/-- Dimension: first of categorical ++ date ++ [来源文件] contained in the text. -/
def extractGroup (prompt : String) (categoryCols dateCols : List String) : Option String :=
  (categoryCols ++ dateCols ++ ["来源文件"]).find? (fun c => containsSub prompt c)

def extractChart (prompt : String) : Option String :=
  (chartMap.find? (fun kv => containsSub prompt kv.1)).map Prod.snd

def extractStat (prompt : String) : String :=
  match statMap.find? (fun kv => containsSub prompt kv.1) with
  | some kv => kv.2
  | none => "sum"

/-- An element of a Python filter tuple. -/
inductive Atom where
  | s (v : String)
  | i (v : ℤ)
deriving DecidableEq

/-- A Python filter tuple, e.g. `(col, "year", 2025)` or `("top_n", 3)`. -/
abbrev Filt := List Atom

def extractFilters (prompt : String) (dateCols : List String) : List Filt :=
  let dateF : List Filt :=
    match dateCols.find? (fun c => containsSub prompt c) with
    | some c =>
      (match searchYear prompt.data with
       | some y => [[Atom.s c, Atom.s "year", Atom.i (y : ℤ)]]
       | none => []) ++
      (match searchMonth prompt.data with
       | some m => [[Atom.s c, Atom.s "month", Atom.i (m : ℤ)]]
       | none => [])
    | none => []
  let topF : List Filt :=
    match searchRank '最' '高' prompt.data with
    | some n => [[Atom.s "top_n", Atom.i (n : ℤ)]]
    | none => []
  let botF : List Filt :=
    match searchRank '最' '低' prompt.data with
    | some n => [[Atom.s "bottom_n", Atom.i (n : ℤ)]]
    | none => []
  dateF ++ topF ++ botF

structure Parsed where
  target : Option String
  group : Option String
  chart : Option String
  stat : String
  filters : List Filt
deriving DecidableEq

def parse_prompt_optimized (prompt : String) (numericCols categoryCols dateCols : List String) :
    Parsed :=
  { target := extractTarget prompt numericCols
    group := extractGroup prompt categoryCols dateCols
    chart := extractChart prompt
    stat := extractStat prompt
    filters := extractFilters prompt dateCols }

/-! ### `apply_filters_optimized` (FilterEngine) -/

def MAX_CHART_POINTS : ℕ := 5000

def yearMatches (v : Value) (a : Atom) : Bool :=
  match v, a with
  | .date y _, .i n => decide ((y : ℤ) = n)
  | _, _ => false

def monthMatches (v : Value) (a : Atom) : Bool :=
  match v, a with
  | .date _ m, .i n => decide ((m : ℤ) = n)
  | _, _ => false

/-- One iteration of the filter loop.  Every filter is a tuple, so the
`isinstance(filt, tuple)` branch is always taken and the tuple is
unpacked as `col, filt_type, val = filt`: a tuple whose length is not 3
(in particular the rank tuples `("top_n", n)` / `("bottom_n", n)`)
raises `ValueError`, so the `elif filt[0] == "top_n"` branches are
unreachable.  Length-3 tuples whose second slot is neither "year" nor
"month" fall through unchanged; `parse_prompt_optimized` never produces
such tuples, nor length-3 tuples whose first slot is not a column name. -/
def applyFilterStep (df : List Row) : Filt → Except String (List Row)
  | [Atom.s col, Atom.s ftype, v] =>
    if ftype = "year" then .ok (df.filter (fun r => yearMatches (cell r col) v))
    else if ftype = "month" then .ok (df.filter (fun r => monthMatches (cell r col) v))
    else .ok df
  | [_, _, _] => .ok df
  | _ => .error "ValueError: not enough values to unpack"

def applyFiltersAux : List Filt → List Row → Except String (List Row)
  | [], df => .ok df
  | f :: fs, df =>
    match applyFilterStep df f with
    | .error e => .error e
    | .ok df2 => applyFiltersAux fs df2

/-- `apply_filters_optimized`: run the filter loop, then cap oversized
results with the fixed-seed sample (modelled by `sampler`).  `targetCol`
is the metric column; the source only reads it in the unreachable
`nlargest`/`nsmallest` branches. -/
def apply_filters_optimized (sampler : List Row → List Row) (df : List Row)
    (filters : List Filt) (targetCol : String) : Except String (List Row) :=
  let _ := targetCol
  match applyFiltersAux filters df with
  | .error e => .error e
  | .ok fd => .ok (if MAX_CHART_POINTS < fd.length then sampler fd else fd)

/-! ### Aggregation (`main`'s groupby block) -/

/-- Group keys of `groupby(group_col)`: the distinct non-null values of
the dimension column, sorted ascending (pandas defaults `sort=True`,
`dropna=True`). -/
def groupKeys (group : String) (rows : List Row) : List Value :=
  List.insertionSort vle
    (((rows.map (fun r => cell r group)).dedup).filter (fun v => decide (v ≠ Value.null)))

def groupRows (group : String) (k : Value) (rows : List Row) : List Row :=
  rows.filter (fun r => decide (cell r group = k))

def sumQ (l : List ℚ) : ℚ := l.foldl qAdd 0

def meanQ (l : List ℚ) : ℚ := qDivNat (sumQ l) l.length

def maxQ : List ℚ → ℚ
  | [] => 0
  | a :: as => as.foldl max a

def minQ : List ℚ → ℚ
  | [] => 0
  | a :: as => as.foldl min a

/-- `agg(["sum","mean","median","max","min","count"]).round(2)` for one
group: all six statistics of the non-null metric values, each rounded to
2 decimals. -/
def sixStats (vals : List ℚ) : List (String × ℚ) :=
  [("sum", round2 (sumQ vals)), ("mean", round2 (meanQ vals)), ("median", round2 (medianQ vals)),
   ("max", round2 (maxQ vals)), ("min", round2 (minQ vals)), ("count", round2 ((vals.length : ℚ)))]

/-- The groupby/agg/round/select block of `main`: one output row per
group key, whose value is the requested statistic looked up out of the
six computed ones. -/
def aggregateResult (group target stat : String) (fd : List Row) : List (Value × ℚ) :=
  (groupKeys group fd).map (fun k =>
    (k, ((sixStats (colNumsQ target (groupRows group k fd))).lookup stat).getD 0))

/-- The requested statistic computed directly (not via the six-way agg). -/
def directStat (stat : String) (vals : List ℚ) : ℚ :=
  if stat = "sum" then sumQ vals
  else if stat = "mean" then meanQ vals
  else if stat = "median" then medianQ vals
  else if stat = "max" then maxQ vals
  else if stat = "min" then minQ vals
  else if stat = "count" then (vals.length : ℚ)
  else 0

/-- The analysis block of `main` after a prompt is submitted: compile the
prompt, validate metric and dimension (reason codes NO_METRIC_FOUND /
NO_DIMENSION_FOUND, surfaced as `st.error` messages in the source), then
filter and aggregate. -/
def runAnalysis (sampler : List Row → List Row) (df : List Row) (prompt : String)
    (numericCols categoryCols dateCols : List String) : Except String (List (Value × ℚ)) :=
  let parsed := parse_prompt_optimized prompt numericCols categoryCols dateCols
  match parsed.target with
  | none => .error "NO_METRIC_FOUND"
  | some target =>
    match parsed.group with
    | none => .error "NO_DIMENSION_FOUND"
    | some group =>
      match apply_filters_optimized sampler df parsed.filters target with
      | .error e => .error e
      | .ok fd => .ok (aggregateResult group target parsed.stat fd)

/-! ### Spec-side definitions used to compare against claims -/

/-- Modelled from the claim C6 wording: statistic chosen by a keyword
table whose fixed priority is mean/average synonyms first, then median,
max, min, count, defaulting to sum when no keyword occurs. -/
def specStatClaim (prompt : String) : String :=
  if containsSub prompt "平均值" ∨ containsSub prompt "均值" then "mean"
  else if containsSub prompt "中位数" then "median"
  else if containsSub prompt "最大值" then "max"
  else if containsSub prompt "最小值" then "min"
  else if containsSub prompt "数量" ∨ containsSub prompt "计数" then "count"
  else "sum"

/-- The amended C6 chooser: identical to `specStatClaim` except that the
sum keyword 总和 takes the highest priority. -/
def specStatAmended (prompt : String) : String :=
  if containsSub prompt "总和" then "sum"
  else if containsSub prompt "平均值" then "mean"
  else if containsSub prompt "均值" then "mean"
  else if containsSub prompt "中位数" then "median"
  else if containsSub prompt "最大值" then "max"
  else if containsSub prompt "最小值" then "min"
  else if containsSub prompt "数量" then "count"
  else if containsSub prompt "计数" then "count"
  else "sum"

/-! ### Concrete tables used by counterexamples and witnesses -/

/-- The table of the worked scenario: region [E,N,E,S], sales [100,200,150,300]. -/
def dfC2 : List Row :=
  [[("region", Value.str "E"), ("sales", Value.num 100)],
   [("region", Value.str "N"), ("sales", Value.num 200)],
   [("region", Value.str "E"), ("sales", Value.num 150)],
   [("region", Value.str "S"), ("sales", Value.num 300)]]

/-- A filtered table whose dimension column d contains a null value. -/
def dfC3 : List Row :=
  [[("d", Value.str "A"), ("m", Value.num 1)],
   [("d", Value.null), ("m", Value.num 2)]]

/-- A table with numeric column a = [1, null] and text column b = [x, x]:
median imputation fills the null with 1 and creates a duplicate row. -/
def dfC7 : DataFrame :=
  ⟨["a", "b"],
   [[("a", Value.num 1), ("b", Value.str "x")],
    [("a", Value.null), ("b", Value.str "x")]]⟩

/-- dtype oracle for dfC7: only column a is numeric. -/
def isNumC7 : String → Bool := fun c => c = "a"

/-- A table like dfC7 but with no null numeric values. -/
def dfW7 : DataFrame :=
  ⟨["a", "b"],
   [[("a", Value.num 1), ("b", Value.str "x")],
    [("a", Value.num 2), ("b", Value.str "x")]]⟩

/-- The six statistic labels produced by the aggregation. -/
def statNames : List String := ["sum", "mean", "median", "max", "min", "count"]

/-! ### Bridge lemmas: `mkRat`-based arithmetic vs field operations -/

theorem den_cast_ne_zero (q : ℚ) : ((q.den : ℚ)) ≠ 0 :=
  Nat.cast_ne_zero.mpr q.den_nz

theorem qAdd_eq_add (a b : ℚ) : qAdd a b = a + b := by
  rw [qAdd, Rat.mkRat_eq_div]
  conv_rhs => rw [← Rat.num_div_den a, ← Rat.num_div_den b]
  rw [div_add_div _ _ (den_cast_ne_zero a) (den_cast_ne_zero b)]
  push_cast
  ring_nf

theorem qDivNat_eq_div (a : ℚ) (n : ℕ) : qDivNat a n = a / (n : ℚ) := by
  rw [qDivNat, Rat.mkRat_eq_div]
  push_cast
  rw [← div_div, Rat.num_div_den]

theorem qMulNat_eq_mul (a : ℚ) (n : ℕ) : qMulNat a n = a * (n : ℚ) := by
  rw [qMulNat, Rat.mkRat_eq_div]
  conv_rhs => rw [← Rat.num_div_den a]
  rw [div_mul_eq_mul_div]
  push_cast
  ring_nf

theorem ratFloor_intCast (n : ℤ) : ratFloor ((n : ℚ)) = n := by
  simp [ratFloor, Rat.intCast_num, Rat.intCast_den, Int.fdiv_one]

theorem roundHalfEven_intCast (n : ℤ) : roundHalfEven ((n : ℚ)) = n := by
  simp [roundHalfEven, ratFloor_intCast, Rat.intCast_num, Rat.intCast_den]

theorem round2_intCast (n : ℤ) : round2 ((n : ℚ)) = (n : ℚ) := by
  have h : qMulNat ((n : ℚ)) 100 = (((n * 100 : ℤ) : ℚ)) := by
    rw [qMulNat_eq_mul]; push_cast; ring
  rw [round2, h, roundHalfEven_intCast, Rat.mkRat_eq_div]
  push_cast
  rw [mul_div_assoc]
  norm_num

theorem round2_round2 (q : ℚ) : round2 (round2 q) = round2 q := by
  have h : qMulNat (round2 q) 100 = (((roundHalfEven (qMulNat q 100) : ℤ) : ℚ)) := by
    rw [qMulNat_eq_mul, round2, Rat.mkRat_eq_div]
    push_cast
    rw [div_mul_cancel₀]
    norm_num
  conv_lhs => rw [round2]
  rw [h, roundHalfEven_intCast, round2]

/-! ### The sort order on values is total and transitive -/

theorem charListLe_cons {a b : Char} {as bs : List Char} :
    charListLe (a :: as) (b :: bs) = true ↔
      a.toNat < b.toNat ∨ (a.toNat = b.toNat ∧ charListLe as bs = true) := by
  simp only [charListLe]
  split_ifs with h1 h2
  · simp [h1]
  · simp only [Bool.false_eq_true, false_iff]
    rintro (h | ⟨h, -⟩) <;> omega
  · have he : a.toNat = b.toNat := by omega
    simp [he, h1]

theorem charListLe_total : ∀ as bs : List Char, charListLe as bs = true ∨ charListLe bs as = true
  | [], _ => Or.inl rfl
  | _ :: _, [] => Or.inr rfl
  | a :: as, b :: bs => by
    rw [charListLe_cons, charListLe_cons]
    rcases Nat.lt_trichotomy a.toNat b.toNat with h | h | h
    · exact Or.inl (Or.inl h)
    · rcases charListLe_total as bs with ih | ih
      · exact Or.inl (Or.inr ⟨h, ih⟩)
      · exact Or.inr (Or.inr ⟨h.symm, ih⟩)
    · exact Or.inr (Or.inl h)

theorem charListLe_trans : ∀ as bs cs : List Char,
    charListLe as bs = true → charListLe bs cs = true → charListLe as cs = true
  | [], _, _, _, _ => rfl
  | _ :: _, [], _, h1, _ => by simp [charListLe] at h1
  | _ :: _, _ :: _, [], _, h2 => by simp [charListLe] at h2
  | a :: as, b :: bs, c :: cs, h1, h2 => by
    rw [charListLe_cons] at h1 h2 ⊢
    rcases h1 with h1 | ⟨e1, t1⟩
    · rcases h2 with h2 | ⟨e2, t2⟩
      · exact Or.inl (by omega)
      · exact Or.inl (by omega)
    · rcases h2 with h2 | ⟨e2, t2⟩
      · exact Or.inl (by omega)
      · exact Or.inr ⟨by omega, charListLe_trans as bs cs t1 t2⟩

theorem strLe_total (s t : String) : strLe s t = true ∨ strLe t s = true :=
  charListLe_total s.data t.data

theorem strLe_trans {s t u : String} (h1 : strLe s t = true) (h2 : strLe t u = true) :
    strLe s u = true :=
  charListLe_trans s.data t.data u.data h1 h2

theorem valueLe_total (a b : Value) : valueLe a b = true ∨ valueLe b a = true := by
  cases a <;> cases b <;>
    simp only [valueLe, vrank, Bool.or_eq_true, Bool.and_eq_true, decide_eq_true_eq] <;>
    first
      | exact le_total _ _
      | exact strLe_total _ _
      | omega

theorem valueLe_trans {a b c : Value} (h1 : valueLe a b = true) (h2 : valueLe b c = true) :
    valueLe a c = true := by
  cases a <;> cases b <;> cases c <;>
    simp only [valueLe, vrank, Bool.or_eq_true, Bool.and_eq_true, decide_eq_true_eq] at h1 h2 ⊢ <;>
    first
      | rfl
      | omega
      | exact le_trans h1 h2
      | exact strLe_trans h1 h2

instance : IsTotal Value vle := ⟨valueLe_total⟩

instance : IsTrans Value vle := ⟨fun _ _ _ => valueLe_trans⟩

instance : IsRefl Value vle :=
  ⟨fun a => (valueLe_total a a).elim id id⟩

/-! ### List infrastructure lemmas -/

theorem find?_first {α : Type} (p : α → Bool) :
    ∀ (l : List α) (a : α), l.find? p = some a →
      ∃ n, l.get? n = some a ∧ p a = true ∧
        ∀ m b, m < n → l.get? m = some b → p b = false
  | [], a, h => by simp at h
  | x :: xs, a, h => by
    by_cases hx : p x
    · rw [List.find?_cons_of_pos _ hx] at h
      obtain rfl : x = a := by injection h
      exact ⟨0, rfl, hx, fun m b hm _ => absurd hm (Nat.not_lt_zero m)⟩
    · rw [List.find?_cons_of_neg _ (by simpa using hx)] at h
      obtain ⟨n, hg, hp, hfirst⟩ := find?_first p xs a h
      refine ⟨n + 1, by simpa using hg, hp, fun m b hm hget => ?_⟩
      match m with
      | 0 =>
        obtain rfl : x = b := by injection hget
        simpa using hx
      | m + 1 =>
        exact hfirst m b (by omega) (by simpa using hget)

theorem mem_dedupRows {x : Row} : ∀ {l : List Row}, x ∈ dedupRows l ↔ x ∈ l
  | [] => Iff.rfl
  | r :: rs => by
    have ih : x ∈ dedupRows rs ↔ x ∈ rs := mem_dedupRows
    simp only [dedupRows, List.mem_cons, List.mem_filter, decide_eq_true_eq, ih]
    by_cases hx : x = r <;> simp [hx]

theorem nodup_dedupRows : ∀ l : List Row, (dedupRows l).Nodup
  | [] => List.nodup_nil
  | r :: rs => by
    simp only [dedupRows, List.nodup_cons]
    refine ⟨fun hx => ?_, (nodup_dedupRows rs).filter _⟩
    have := List.of_mem_filter hx
    simp at this

theorem dedupRows_eq_self : ∀ {l : List Row}, l.Nodup → dedupRows l = l
  | [], _ => rfl
  | r :: rs, h => by
    simp only [dedupRows]
    rw [dedupRows_eq_self (List.nodup_cons.mp h).2, List.filter_eq_self.mpr]
    intro s hs
    simp only [decide_eq_true_eq]
    exact fun e => (List.nodup_cons.mp h).1 (e ▸ hs)

theorem cell_rowProjn : ∀ (cols : List String) (r : Row) {c : String}, c ∈ cols →
    cell (rowProjn cols r) c = cell r c
  | [], _, _, hc => absurd hc (List.not_mem_nil _)
  | c' :: cs, r, c, hc => by
    by_cases he : c = c'
    · simp [rowProjn, cell, List.lookup, he]
    · have hcs : c ∈ cs := by
        rcases List.mem_cons.mp hc with h | h
        · exact absurd h he
        · exact h
      have hne : (c == c') = false := beq_eq_false_iff_ne.mpr he
      simp only [rowProjn, List.map_cons, cell, List.lookup, hne]
      exact cell_rowProjn cs r hcs

theorem rowProjn_idem (cols : List String) (r : Row) :
    rowProjn cols (rowProjn cols r) = rowProjn cols r :=
  List.map_congr_left (fun c hc => by
    show (c, cell (rowProjn cols r) c) = (c, cell r c)
    rw [cell_rowProjn cols r hc])

theorem foldl_max_spec : ∀ (as : List ℤ) (a : ℤ),
    as.foldl max a ∈ a :: as ∧ ∀ v ∈ a :: as, v ≤ as.foldl max a
  | [], a => ⟨List.mem_singleton.mpr rfl, by simp⟩
  | b :: as, a => by
    have ih := foldl_max_spec as (max a b)
    simp only [List.foldl_cons]
    constructor
    · rcases List.mem_cons.mp ih.1 with h | h
      · rcases max_choice a b with hm | hm <;> rw [h, hm]
        · exact List.mem_cons_self _ _
        · exact List.mem_cons_of_mem _ (List.mem_cons_self _ _)
      · exact List.mem_cons_of_mem _ (List.mem_cons_of_mem _ h)
    · intro v hv
      rcases List.mem_cons.mp hv with rfl | hv
      · exact le_trans (le_max_left v b) (ih.2 _ (List.mem_cons_self _ _))
      · rcases List.mem_cons.mp hv with rfl | hv
        · exact le_trans (le_max_right a v) (ih.2 _ (List.mem_cons_self _ _))
        · exact ih.2 v (List.mem_cons_of_mem _ hv)

theorem foldl_min_spec : ∀ (as : List ℤ) (a : ℤ),
    as.foldl min a ∈ a :: as ∧ ∀ v ∈ a :: as, as.foldl min a ≤ v
  | [], a => ⟨List.mem_singleton.mpr rfl, by simp⟩
  | b :: as, a => by
    have ih := foldl_min_spec as (min a b)
    simp only [List.foldl_cons]
    constructor
    · rcases List.mem_cons.mp ih.1 with h | h
      · rcases min_choice a b with hm | hm <;> rw [h, hm]
        · exact List.mem_cons_self _ _
        · exact List.mem_cons_of_mem _ (List.mem_cons_self _ _)
      · exact List.mem_cons_of_mem _ (List.mem_cons_of_mem _ h)
    · intro v hv
      rcases List.mem_cons.mp hv with rfl | hv
      · exact le_trans (ih.2 _ (List.mem_cons_self _ _)) (min_le_left v b)
      · rcases List.mem_cons.mp hv with rfl | hv
        · exact le_trans (ih.2 _ (List.mem_cons_self _ _)) (min_le_right a v)
        · exact ih.2 v (List.mem_cons_of_mem _ hv)

theorem sixStats_lookup (stat : String) (vals : List ℚ) (h : stat ∈ statNames) :
    (sixStats vals).lookup stat = some (round2 (directStat stat vals)) := by
  simp only [statNames, List.mem_cons, List.not_mem_nil, or_false] at h
  rcases h with rfl | rfl | rfl | rfl | rfl | rfl <;> rfl

theorem extractStat_mem (prompt : String) : extractStat prompt ∈ statNames := by
  rw [extractStat]
  cases hf : statMap.find? (fun kv => containsSub prompt kv.1) with
  | none => simp [statNames]
  | some kv =>
    have hm := List.mem_of_find?_eq_some hf
    simp only [statMap, List.mem_cons, List.not_mem_nil, or_false] at hm
    rcases hm with rfl | rfl | rfl | rfl | rfl | rfl | rfl | rfl <;> simp [statNames]

/-! ### Claim theorems -/

/-- C1: the prompt 2025年日期销售额最高3个 compiles exactly to the filter
list [(日期, "year", 2025), ("top_n", 3)], and running the analysis on any
table with any sampler raises ValueError instead of returning the top 3
rows among the year-2025 rows: the rank tuple ("top_n", 3) has length 2,
but the filter loop unpacks every tuple as `col, filt_type, val = filt`,
so the rank-selection branches are unreachable dead code. -/
theorem rank_filter_raises_valueerror (sampler : List Row → List Row) (df : List Row) :
    (parse_prompt_optimized "2025年日期销售额最高3个" ["销售额"] [] ["日期"]).filters =
      [[Atom.s "日期", Atom.s "year", Atom.i 2025], [Atom.s "top_n", Atom.i 3]] ∧
    runAnalysis sampler df "2025年日期销售额最高3个" ["销售额"] [] ["日期"] =
      .error "ValueError: not enough values to unpack" :=
  ⟨by decide, rfl⟩

/-- C2: on the table region=[E,N,E,S], sales=[100,200,150,300], the
instruction "sum of sales by region" compiles to the plan
{metric=sales, dimension=region, statistic=sum (the default, as no
statistic keyword occurs), chart=none, no filters} and executes to
{E: 250, N: 200, S: 300}, ordered ascending by region. -/
theorem scenario_sum_of_sales_by_region (sampler : List Row → List Row) :
    parse_prompt_optimized "sum of sales by region" ["sales"] ["region"] [] =
      ⟨some "sales", some "region", none, "sum", []⟩ ∧
    runAnalysis sampler dfC2 "sum of sales by region" ["sales"] ["region"] [] =
      .ok [(Value.str "E", 250), (Value.str "N", 200), (Value.str "S", 300)] := by
  refine ⟨by decide, ?_⟩
  have h1 : runAnalysis sampler dfC2 "sum of sales by region" ["sales"] ["region"] [] =
      .ok (aggregateResult "region" "sales" "sum" dfC2) := rfl
  have h2 : aggregateResult "region" "sales" "sum" dfC2 =
      [(Value.str "E", 250), (Value.str "N", 200), (Value.str "S", 300)] := rfl
  rw [h1, h2]

/-- C3 counterexample: on the filtered table dfC3 the dimension column d
contains a null value, yet the aggregated result has a single row for A
and no null-group: pandas `groupby` defaults to `dropna=True`, so the
claimed null-group is never produced. -/
theorem aggregation_drops_null_group :
    Value.null ∈ dfC3.map (fun r => cell r "d") ∧
      (aggregateResult "d" "m" "sum" dfC3).map Prod.fst = [Value.str "A"] := by
  decide

/-- C3 amended: for every filtered table and dimension column, aggregation
produces exactly one output row per distinct NON-null dimension value
(rows whose dimension value is null are dropped by groupby's default
dropna=True), and orders the output rows ascending by dimension value. -/
theorem aggregation_one_row_per_group (group target stat : String) (fd : List Row) :
    ((aggregateResult group target stat fd).map Prod.fst).Nodup ∧
      List.Sorted vle ((aggregateResult group target stat fd).map Prod.fst) ∧
      ∀ v, v ∈ (aggregateResult group target stat fd).map Prod.fst ↔
        (v ≠ Value.null ∧ v ∈ fd.map (fun r => cell r group)) := by
  have hkeys : (aggregateResult group target stat fd).map Prod.fst = groupKeys group fd := by
    simp only [aggregateResult, List.map_map]
    exact List.map_id'' (fun _ => rfl) _
  rw [hkeys, groupKeys]
  have hperm := List.perm_insertionSort vle
    (((fd.map (fun r => cell r group)).dedup).filter (fun v => decide (v ≠ Value.null)))
  refine ⟨hperm.nodup_iff.mpr (((fd.map (fun r => cell r group)).nodup_dedup).filter _),
    List.sorted_insertionSort vle _, fun v => ?_⟩
  rw [hperm.mem_iff, List.mem_filter, List.mem_dedup]
  simp [and_comm]

/-- C4: whenever at least one numeric column name occurs as a substring of
the instruction text, the compiled metric is the first numeric column
name (in declared catalogue order) appearing in the text: it occurs in
the text and every catalogue entry before it does not. -/
theorem metric_first_matching_numeric_column
    (prompt : String) (numericCols categoryCols dateCols : List String)
    (h : ∃ c ∈ numericCols, containsSub prompt c = true) :
    ∃ c n, (parse_prompt_optimized prompt numericCols categoryCols dateCols).target = some c ∧
      numericCols.get? n = some c ∧ containsSub prompt c = true ∧
      ∀ m d, m < n → numericCols.get? m = some d → containsSub prompt d = false := by
  obtain ⟨c0, hc0, hsub⟩ := h
  obtain ⟨a, ha⟩ : ∃ a, numericCols.find? (fun c => containsSub prompt c) = some a := by
    cases hf : numericCols.find? (fun c => containsSub prompt c) with
    | some a => exact ⟨a, rfl⟩
    | none => exact absurd hsub (by simpa using List.find?_eq_none.mp hf c0 hc0)
  obtain ⟨n, hg, hp, hfirst⟩ := find?_first _ numericCols a ha
  exact ⟨a, n, ha, hg, hp, hfirst⟩

/-- Witness for C4: the prompt 统计各地区销售额总和 on the catalogue
[销售额, 利润] resolves the metric to 销售额. -/
theorem metric_first_matching_numeric_column_witness :
    ∃ c n, (parse_prompt_optimized "统计各地区销售额总和" ["销售额", "利润"] ["地区"] []).target =
        some c ∧
      (["销售额", "利润"] : List String).get? n = some c ∧
      containsSub "统计各地区销售额总和" c = true ∧
      ∀ m d, m < n → (["销售额", "利润"] : List String).get? m = some d →
        containsSub "统计各地区销售额总和" d = false :=
  metric_first_matching_numeric_column "统计各地区销售额总和" ["销售额", "利润"] ["地区"] []
    ⟨"销售额", by decide, by decide⟩

/-- C5: if no numeric column name occurs in the instruction text the
compiled plan has no metric, and for every table and sampler the analysis
fails with NO_METRIC_FOUND — the result does not depend on the data, so
no filtering or aggregation is performed; no default metric is guessed. -/
theorem no_metric_found_aborts
    (prompt : String) (numericCols categoryCols dateCols : List String)
    (h : ∀ c ∈ numericCols, containsSub prompt c = false) :
    (parse_prompt_optimized prompt numericCols categoryCols dateCols).target = none ∧
      ∀ (sampler : List Row → List Row) (df : List Row),
        runAnalysis sampler df prompt numericCols categoryCols dateCols =
          .error "NO_METRIC_FOUND" := by
  have ht : (parse_prompt_optimized prompt numericCols categoryCols dateCols).target = none := by
    show extractTarget prompt numericCols = none
    rw [extractTarget]
    exact List.find?_eq_none.mpr (fun c hc => by simp [h c hc])
  refine ⟨ht, fun sampler df => ?_⟩
  simp only [runAnalysis, ht]

/-- Witness for C5: a prompt naming no numeric column aborts with
NO_METRIC_FOUND. -/
theorem no_metric_found_aborts_witness :
    (parse_prompt_optimized "你好世界" ["销售额", "利润"] ["地区"] []).target = none ∧
      ∀ (sampler : List Row → List Row) (df : List Row),
        runAnalysis sampler df "你好世界" ["销售额", "利润"] ["地区"] [] =
          .error "NO_METRIC_FOUND" :=
  no_metric_found_aborts "你好世界" ["销售额", "利润"] ["地区"] [] (by decide)

/-- C6 counterexample: on a prompt containing both the sum keyword 总和 and
the mean synonym 平均值 the compiled statistic is sum, because the code's
keyword table checks 总和 before the mean synonyms; under the claim's
priority (mean/average synonyms first, sum only as the no-keyword
default) the statistic would be mean. -/
theorem stat_priority_counterexample :
    (parse_prompt_optimized "销售额的平均值与总和" ["销售额"] ["地区"] []).stat = "sum" ∧
      specStatClaim "销售额的平均值与总和" = "mean" ∧ ("sum" : String) ≠ "mean" := by
  refine ⟨by decide, by decide, by decide⟩

/-- C6 amended: the compiled statistic is chosen by a keyword table with
fixed priority — the sum keyword 总和 first, then the mean synonyms
平均值 and 均值, then median, max, min, count — and defaults to sum when
no statistic keyword occurs in the text. -/
theorem stat_keyword_priority (prompt : String)
    (numericCols categoryCols dateCols : List String) :
    (parse_prompt_optimized prompt numericCols categoryCols dateCols).stat =
      specStatAmended prompt := by
  show extractStat prompt = specStatAmended prompt
  simp only [extractStat, statMap, specStatAmended, List.find?_cons]
  cases containsSub prompt "总和" <;>
    cases containsSub prompt "平均值" <;>
      cases containsSub prompt "均值" <;>
        cases containsSub prompt "中位数" <;>
          cases containsSub prompt "最大值" <;>
            cases containsSub prompt "最小值" <;>
              cases containsSub prompt "数量" <;>
                cases containsSub prompt "计数" <;>
                  rfl

/-- C8 counterexample: the int64 column [0, 1] would fit losslessly in 8
bits, but `optimize_dtypes` stores it at 32 bits — the only narrowing the
code performs is int64 → int32. -/
theorem int_width_counterexample :
    optimizedIntWidth [0, 1] = 32 ∧ smallestLosslessWidth [0, 1] = 8 ∧
      optimizedIntWidth [0, 1] ≠ smallestLosslessWidth [0, 1] := by
  decide

/-- C8 amended: for every nonempty int64 column, the stored width is 32
bits when the observed min and max fit int32 and otherwise stays 64 bits;
the narrowing never loses a value, and widths 8/16 are never produced. -/
theorem int_width_narrowing (vals : List ℤ) (hne : vals ≠ [])
    (h64 : ∀ v ∈ vals, fitsWidth 64 v = true) :
    (∀ v ∈ vals, fitsWidth (optimizedIntWidth vals) v = true) ∧
      (optimizedIntWidth vals = 32 ∨ optimizedIntWidth vals = 64) ∧
      (optimizedIntWidth vals = 32 ↔ ∀ v ∈ vals, fitsWidth 32 v = true) := by
  obtain ⟨a, as, rfl⟩ : ∃ a as, vals = a :: as := by
    cases vals with
    | nil => exact absurd rfl hne
    | cons a as => exact ⟨a, as, rfl⟩
  have hM := foldl_max_spec as a
  have hm := foldl_min_spec as a
  simp only [optimizedIntWidth, listMaxZ, listMinZ]
  by_cases hc : as.foldl max a ≤ int32MaxZ ∧ int32MinZ ≤ as.foldl min a
  · rw [if_pos hc]
    have hfit : ∀ v ∈ a :: as, fitsWidth 32 v = true := by
      intro v hv
      have h1 := hM.2 v hv
      have h2 := hm.2 v hv
      simp only [fitsWidth, Bool.and_eq_true, decide_eq_true_eq]
      have e1 : (int32MaxZ : ℤ) = 2 ^ (32 - 1) - 1 := by decide
      have e2 : (int32MinZ : ℤ) = -(2 ^ (32 - 1)) := by decide
      omega
    exact ⟨hfit, Or.inl rfl, iff_of_true rfl hfit⟩
  · rw [if_neg hc]
    refine ⟨h64, Or.inr rfl, ?_⟩
    constructor
    · intro h; exact absurd h (by decide)
    · intro hall
      exfalso
      apply hc
      have e1 : (int32MaxZ : ℤ) = 2 ^ (32 - 1) - 1 := by decide
      have e2 : (int32MinZ : ℤ) = -(2 ^ (32 - 1)) := by decide
      have hMf := hall _ hM.1
      have hmf := hall _ hm.1
      simp only [fitsWidth, Bool.and_eq_true, decide_eq_true_eq] at hMf hmf
      omega

/-- Witness for C8 at the nonempty int64 column [0, 5000000000]: the
column keeps 64 bits because 5000000000 exceeds the int32 maximum. -/
theorem int_width_narrowing_witness :
    (∀ v ∈ ([0, 5000000000] : List ℤ), fitsWidth (optimizedIntWidth [0, 5000000000]) v = true) ∧
      (optimizedIntWidth [0, 5000000000] = 32 ∨ optimizedIntWidth [0, 5000000000] = 64) ∧
      (optimizedIntWidth [0, 5000000000] = 32 ↔
        ∀ v ∈ ([0, 5000000000] : List ℤ), fitsWidth 32 v = true) :=
  int_width_narrowing [0, 5000000000] (by decide) (by decide)

/-- C9 counterexample: the synthesized source-file column 来源文件 with 11
equal text values has cardinality ratio 1/11 < 10%, yet `optimize_dtypes`
does not convert it to category: the loop explicitly skips 来源文件. -/
theorem category_counterexample :
    (((List.replicate 11 (Value.str "f.csv")).dedup.length : ℚ) /
        ((List.replicate 11 (Value.str "f.csv")).length : ℚ) < 1 / 10) ∧
      becomesCategory "来源文件" (List.replicate 11 (Value.str "f.csv")) = false := by
  have h1 : (List.replicate 11 (Value.str "f.csv")).dedup.length = 1 := by decide
  have h2 : (List.replicate 11 (Value.str "f.csv")).length = 11 := by decide
  rw [h1, h2]
  exact ⟨by norm_num, by decide⟩

/-- C9 amended: a text column is converted to the dictionary-compressed
category encoding iff it is not the source-file column 来源文件 and its
cardinality ratio (distinct values, NaN included, divided by total
values) is below 10%. -/
theorem category_conversion_characterization (name : String) (vals : List Value) :
    becomesCategory name vals = true ↔
      (name ≠ "来源文件" ∧ vals ≠ [] ∧
        ((vals.dedup.length : ℚ) / (vals.length : ℚ) < 1 / 10)) := by
  simp only [becomesCategory, Bool.and_eq_true, decide_eq_true_eq]
  constructor
  · rintro ⟨hn, hlt⟩
    have hpos : 0 < vals.length := by omega
    refine ⟨hn, List.length_pos.mp hpos, ?_⟩
    rw [div_lt_div_iff₀ (by exact_mod_cast hpos) (by norm_num)]
    calc ((vals.dedup.length : ℚ)) * 10 = ((10 * vals.dedup.length : ℕ) : ℚ) := by
          push_cast; ring
      _ < ((vals.length : ℕ) : ℚ) := by exact_mod_cast hlt
      _ = 1 * (vals.length : ℚ) := by ring
  · rintro ⟨hn, hne, hlt⟩
    have hpos : 0 < vals.length := List.length_pos.mpr hne
    refine ⟨hn, ?_⟩
    rw [div_lt_div_iff₀ (by exact_mod_cast hpos) (by norm_num)] at hlt
    have h10 : ((10 * vals.dedup.length : ℕ) : ℚ) < ((vals.length : ℕ) : ℚ) := by
      push_cast
      linarith
    exact_mod_cast h10

/-- C10: for every analysis request that succeeds, the pipeline reached
the aggregation with some filtered table fd, and every value of the
result equals the requested statistic of its group's metric values
rounded to two decimals — the six-way aggregate followed by rounding and
column selection yields exactly `round2` of the directly computed
statistic, and in particular every result value is a fixed point of
2-decimal rounding. -/
theorem result_values_rounded
    (sampler : List Row → List Row) (df : List Row) (prompt : String)
    (numericCols categoryCols dateCols : List String) (res : List (Value × ℚ))
    (h : runAnalysis sampler df prompt numericCols categoryCols dateCols = .ok res) :
    ∃ t g fd,
      (parse_prompt_optimized prompt numericCols categoryCols dateCols).target = some t ∧
      (parse_prompt_optimized prompt numericCols categoryCols dateCols).group = some g ∧
      apply_filters_optimized sampler df
        (parse_prompt_optimized prompt numericCols categoryCols dateCols).filters t = .ok fd ∧
      ∀ p ∈ res,
        p.2 = round2 (directStat (parse_prompt_optimized prompt numericCols categoryCols dateCols).stat
          (colNumsQ t (groupRows g p.1 fd))) ∧
        round2 p.2 = p.2 := by
  simp only [runAnalysis] at h
  split at h
  next => simp at h
  next t ht =>
    split at h
    next => simp at h
    next g hg =>
      split at h
      next e hf => simp at h
      next fd hf =>
        simp only [Except.ok.injEq] at h
        refine ⟨t, g, fd, ht, hg, hf, fun p hp => ?_⟩
        rw [← h] at hp
        simp only [aggregateResult, List.mem_map] at hp
        obtain ⟨k, hk, rfl⟩ := hp
        have hsel := sixStats_lookup
          (parse_prompt_optimized prompt numericCols categoryCols dateCols).stat
          (colNumsQ t (groupRows g k fd)) (extractStat_mem prompt)
        constructor
        · rw [hsel]; rfl
        · rw [hsel]
          show round2 ((some (round2 _)).getD 0) = (some (round2 _)).getD 0
          rw [Option.getD_some, round2_round2]

/-- Witness for C10 at the worked scenario: the run succeeds and the
theorem applies. -/
theorem result_values_rounded_witness :
    runAnalysis id dfC2 "sum of sales by region" ["sales"] ["region"] [] =
      .ok [(Value.str "E", 250), (Value.str "N", 200), (Value.str "S", 300)] ∧
    ∃ t g fd,
      (parse_prompt_optimized "sum of sales by region" ["sales"] ["region"] []).target = some t ∧
      (parse_prompt_optimized "sum of sales by region" ["sales"] ["region"] []).group = some g ∧
      apply_filters_optimized id dfC2
        (parse_prompt_optimized "sum of sales by region" ["sales"] ["region"] []).filters t =
        .ok fd ∧
      ∀ p ∈ [((Value.str "E" : Value), (250 : ℚ)), (Value.str "N", 200), (Value.str "S", 300)],
        p.2 = round2 (directStat
          (parse_prompt_optimized "sum of sales by region" ["sales"] ["region"] []).stat
          (colNumsQ t (groupRows g p.1 fd))) ∧
        round2 p.2 = p.2 := by
  have hrun : runAnalysis id dfC2 "sum of sales by region" ["sales"] ["region"] [] =
      .ok [(Value.str "E", 250), (Value.str "N", 200), (Value.str "S", 300)] := by
    have h1 : runAnalysis id dfC2 "sum of sales by region" ["sales"] ["region"] [] =
        .ok (aggregateResult "region" "sales" "sum" dfC2) := rfl
    have h2 : aggregateResult "region" "sales" "sum" dfC2 =
        [(Value.str "E", 250), (Value.str "N", 200), (Value.str "S", 300)] := rfl
    rw [h1, h2]
  exact ⟨hrun, result_values_rounded id dfC2 "sum of sales by region" ["sales"] ["region"] []
    [(Value.str "E", 250), (Value.str "N", 200), (Value.str "S", 300)] hrun⟩

/-! ### C7: the Cleaner and idempotence -/

theorem fillRow_eq_rowProjn (isNum : String → Bool) (cols : List String) (rows : List Row)
    (r : Row) (hnn : ∀ c ∈ cols, isNum c = true → cell r c ≠ Value.null) :
    fillRow isNum cols rows r = rowProjn cols r :=
  List.map_congr_left (fun c hc => by
    show (c, if isNum c = true ∧ cell r c = Value.null
        then Value.num (medianQ (colNumsQ c rows)) else cell r c) = (c, cell r c)
    rw [if_neg (fun hand => hnn c hc hand.1 hand.2)])

theorem mem_dedupedRows {df : DataFrame} {r : Row} (h : r ∈ dedupedRows df) :
    ∃ r0 ∈ dropNullRows df, r = rowProjn (keptCols df) r0 := by
  rw [dedupedRows, mem_dedupRows] at h
  obtain ⟨r0, h0, he⟩ := List.mem_map.mp h
  exact ⟨r0, h0, he.symm⟩

theorem dedupedRows_proj_self {df : DataFrame} {r : Row} (h : r ∈ dedupedRows df) :
    rowProjn (keptCols df) r = r := by
  obtain ⟨r0, -, rfl⟩ := mem_dedupedRows h
  exact rowProjn_idem _ _

/-- C7 counterexample: the Cleaner is not idempotent.  On dfC7 the median
imputation (which runs after duplicate removal) fills the null in column
a with the median 1, turning the two distinct rows into identical rows;
the second run's duplicate removal then deletes one of them, so running
preprocessing twice differs from running it once. -/
theorem cleaner_not_idempotent :
    (preprocess_data isNumC7 dfC7).rows.length = 2 ∧
      (preprocess_data isNumC7 (preprocess_data isNumC7 dfC7)).rows.length = 1 ∧
      preprocess_data isNumC7 (preprocess_data isNumC7 dfC7) ≠ preprocess_data isNumC7 dfC7 := by
  decide

/-- C7 amended: the Cleaner is idempotent on every table whose numeric
columns contain no null values: there the second run removes no rows or
columns and changes no value.  (In general median imputation, which runs
after duplicate removal, can create duplicate rows that only a second run
removes — see the counterexample.) -/
theorem cleaner_idempotent_of_no_null_numeric (isNum : String → Bool) (df : DataFrame)
    (h : ∀ c ∈ df.cols, isNum c = true → ∀ r ∈ df.rows, cell r c ≠ Value.null) :
    preprocess_data isNum (preprocess_data isNum df) = preprocess_data isNum df := by
  have hnn : ∀ r ∈ dedupedRows df, ∀ c ∈ keptCols df, isNum c = true →
      cell r c ≠ Value.null := by
    intro r hr c hc hn
    obtain ⟨r0, h0, rfl⟩ := mem_dedupedRows hr
    have hc' : c ∈ df.cols := List.mem_of_mem_filter hc
    have hr0 : r0 ∈ df.rows := List.mem_of_mem_filter h0
    rw [cell_rowProjn _ _ hc]
    exact h c hc' hn r0 hr0
  have hfill : (dedupedRows df).map (fillRow isNum (keptCols df) (dedupedRows df)) =
      dedupedRows df := by
    calc (dedupedRows df).map (fillRow isNum (keptCols df) (dedupedRows df))
        = (dedupedRows df).map id :=
          List.map_congr_left (fun r hr => by
            rw [fillRow_eq_rowProjn _ _ _ _ (fun c hc hn => hnn r hr c hc hn),
              dedupedRows_proj_self hr, id])
      _ = dedupedRows df := List.map_id _
  have hP : preprocess_data isNum df = ⟨keptCols df, dedupedRows df⟩ := by
    rw [preprocess_data, hfill]
  have hdrop : dropNullRows ⟨keptCols df, dedupedRows df⟩ = dedupedRows df := by
    rw [dropNullRows]
    apply List.filter_eq_self.mpr
    intro r hr
    obtain ⟨r0, h0, rfl⟩ := mem_dedupedRows hr
    have h0f := h0
    rw [dropNullRows] at h0f
    simp only [List.mem_filter] at h0f
    obtain ⟨c, hc, hcnn⟩ := List.any_eq_true.mp h0f.2
    have hcnn' : cell r0 c ≠ Value.null := of_decide_eq_true hcnn
    have hckept : c ∈ keptCols df := by
      rw [keptCols]
      exact List.mem_filter.mpr ⟨hc, List.any_eq_true.mpr ⟨r0, h0, by simpa using hcnn'⟩⟩
    exact List.any_eq_true.mpr
      ⟨c, hckept, by rw [cell_rowProjn _ _ hckept]; simpa using hcnn'⟩
  have hkept : keptCols ⟨keptCols df, dedupedRows df⟩ = keptCols df := by
    rw [keptCols, hdrop]
    apply List.filter_eq_self.mpr
    intro c hc
    have hc' : c ∈ keptCols df := hc
    have hcf := hc'
    rw [keptCols] at hcf
    simp only [List.mem_filter] at hcf
    obtain ⟨r', hr', hnn'⟩ := List.any_eq_true.mp hcf.2
    have hmem : rowProjn (keptCols df) r' ∈ dedupedRows df := by
      rw [dedupedRows, mem_dedupRows]
      exact List.mem_map_of_mem _ hr'
    refine List.any_eq_true.mpr ⟨rowProjn (keptCols df) r', hmem, ?_⟩
    have := of_decide_eq_true hnn'
    rw [show cell (rowProjn (keptCols df) r') c = cell r' c from cell_rowProjn _ _ hc']
    simpa using this
  have hprojmap : (dedupedRows df).map (rowProjn (keptCols df)) = dedupedRows df :=
    calc (dedupedRows df).map (rowProjn (keptCols df))
        = (dedupedRows df).map id :=
          List.map_congr_left (fun r hr => by rw [dedupedRows_proj_self hr, id])
      _ = dedupedRows df := List.map_id _
  have hded : dedupedRows ⟨keptCols df, dedupedRows df⟩ = dedupedRows df := by
    rw [dedupedRows, hdrop, hkept, hprojmap]
    exact dedupRows_eq_self (by rw [dedupedRows]; exact nodup_dedupRows _)
  rw [hP, preprocess_data, hkept, hded, hP] at *
  rw [hfill]

/-- Witness for C7 on a table with no null numeric values. -/
theorem cleaner_idempotent_witness :
    preprocess_data isNumC7 (preprocess_data isNumC7 dfW7) = preprocess_data isNumC7 dfW7 :=
  cleaner_idempotent_of_no_null_numeric isNumC7 dfW7 (by decide)

end ExcelAnalysis
